import Mathlib

/-!
# urlshort: redirect handler built from a path table or a YAML document

Shallow embedding of `url_shortener/urlshort/handler.go`.

* Go's `map[string]string` is a finite map with unique keys (`GoMap`), with
  the three operations the source uses: `make`, the two-valued index
  expression `v, ok := m[k]` and the assignment `m[k] = v`.
* `net/http` is the environment of the code.  `http.ResponseWriter` is an
  interface, so it is a type class here; `http.Redirect` is written against
  that interface following the standard library, with the pure string
  helpers it calls (`net/url`, `path`, escaping, status text) collected in
  `StdLib`.
* `yaml.Unmarshal` is an external decoder and is a parameter of `parseYAML`
  and `YAMLHandler`.
* A handler is a state transformer on the response writer.  The request
  path is the string in `r.URL.Path`, the field the closure reads; net/http
  fills it with the percent-decoded path of the request target
  (`URL.setPath`).
* For the effect of a call on the captured map, the body of the closure is
  also given statement by statement on a state holding the map variable and
  the writer (`MapHandlerBody`), with Go's map index expression and map
  assignment as operations on that state.
-/

namespace urlshort

/-! ## Data model -/

/-- Record type `T` of handler.go: one `path`/`url` entry of the YAML list. -/
structure T where
  Path : String
  URL : String
deriving DecidableEq, Repr

/-- Go `map[string]string`: finitely many entries, keys unique. -/
abbrev GoMap := AList (fun _ : String => String)

namespace GoMap

/-- Go `make(map[string]string)`. -/
def make : GoMap := ∅

/-- Go `v, ok := m[k]`: the stored value and `true`, or the zero value `""`
and `false` when `k` is not a key. -/
def index (m : GoMap) (k : String) : String × Bool :=
  match m.lookup k with
  | some v => (v, true)
  | none => ("", false)

/-- Go `m[k] = v`: sets the entry for `k`, replacing an existing one. -/
def assign (m : GoMap) (k v : String) : GoMap := m.insert k v

/-- Go `len(m)`. -/
def len (m : GoMap) : Nat := m.entries.length

end GoMap

/-! ## The net/http environment -/

/-- The part of `url.URL` the code reads. -/
structure URL where
  Path : String
deriving DecidableEq, Repr

/-- The part of `http.Request` the code and `http.Redirect` read. -/
structure Request where
  Method : String
  URL : URL
deriving DecidableEq, Repr

/-- Go `ishex` of net/url. -/
def ishex (c : Char) : Bool :=
  ('0' ≤ c && c ≤ '9') || ('a' ≤ c && c ≤ 'f') || ('A' ≤ c && c ≤ 'F')

/-- Go `unhex` of net/url. -/
def unhex (c : Char) : Nat :=
  if '0' ≤ c && c ≤ '9' then c.toNat - '0'.toNat
  else if 'a' ≤ c && c ≤ 'f' then c.toNat - 'a'.toNat + 10
  else if 'A' ≤ c && c ≤ 'F' then c.toNat - 'A'.toNat + 10
  else 0

/-- Go `unescape(s, encodePath)` of net/url on the characters of `s`: every
`%` must be followed by two hex digits (otherwise the whole call fails, `none`)
and the three characters become the byte they name; nothing else changes, a
`+` included.  A decoded byte is given as the character with that code, which
is the byte itself for the ASCII range. -/
def unescapeChars : List Char → Option (List Char)
  | [] => some []
  | c :: rest =>
    if c = '%' then
      match rest with
      | a :: b :: rest' =>
        if ishex a && ishex b then
          (unescapeChars rest').map (fun t => Char.ofNat (unhex a * 16 + unhex b) :: t)
        else none
      | _ => none
    else (unescapeChars rest).map (fun t => c :: t)

/-- Go `unescape(s, encodePath)` of net/url. -/
def unescape (s : String) : Option String :=
  (unescapeChars s.data).map String.mk

/-- Go `(*URL).setPath(p)` of net/url, by which the server fills the URL of an
incoming request from the raw path `p` of the request target: `Path` is the
unescaped `p`; `none` is the error. -/
def URL.setPath (p : String) : Option URL :=
  (unescape p).map (fun path => { Path := path })

/-- The request a handler receives from the server for a method and the raw
path of the request target. -/
def serverRequest (method rawPath : String) : Option Request :=
  (URL.setPath rawPath).map (fun u => { Method := method, URL := u })

/-- Go `http.Header`, a map from (canonical) header name to its values. -/
abbrev Header := AList (fun _ : String => List String)

/-- The `http.ResponseWriter` interface.  `Header` reads the header map that
`w.Header()` returns and `HeaderSet` is `w.Header().Set(key, value)`. -/
class ResponseWriter (σ : Type) where
  Header : σ → Header
  HeaderSet : σ → String → String → σ
  WriteHeader : σ → Nat → σ
  Write : σ → String → σ

/-- Go `http.Handler`: `ServeHTTP(rw, r)` as a transformer of the writer. -/
abbrev Handler (σ : Type) := σ → Request → σ

/-- Go `http.StatusFound`. -/
def StatusFound : Nat := 302

/-- Go `http.StatusNotFound`. -/
def StatusNotFound : Nat := 404

/-- Pure string helpers of the Go standard library that `http.Redirect`
calls; their code is outside this repository, so they are parameters.
`absolute oldpath url` stands for the first block of `http.Redirect`, which
makes a relative `url` absolute against the request path (`url.Parse`,
`path.Split`, `path.Clean`) and keeps a `url` with a scheme or host as it is;
`hexEscapeNonASCII`, `htmlEscape` and `StatusText` are the functions of these
names in net/http. -/
structure StdLib where
  absolute : String → String → String
  hexEscapeNonASCII : String → String
  htmlEscape : String → String
  StatusText : Nat → String

/-- Go `http.Redirect(w, r, url, code)`, following net/http/server.go: the
URL is made absolute, the Location header is set, a Content-Type is set for
GET and HEAD unless one was there, the status code is sent, and for GET
(unless a Content-Type was there) a short HTML note is written with
`fmt.Fprintln`. -/
def Redirect {σ : Type} [ResponseWriter σ] (lib : StdLib) (w : σ) (r : Request)
    (url : String) (code : Nat) : σ :=
  let url := lib.absolute r.URL.Path url
  let h := ResponseWriter.Header w
  let hadCT := (h.lookup "Content-Type").isSome
  let w := ResponseWriter.HeaderSet w "Location" (lib.hexEscapeNonASCII url)
  let w :=
    if !hadCT && (r.Method == "GET" || r.Method == "HEAD") then
      ResponseWriter.HeaderSet w "Content-Type" "text/html; charset=utf-8"
    else w
  let w := ResponseWriter.WriteHeader w code
  if !hadCT && r.Method == "GET" then
    let body := "<a href=\"" ++ lib.htmlEscape url ++ "\">" ++ lib.StatusText code ++ "</a>.\n"
    ResponseWriter.Write w (body ++ "\n")
  else w

/-- The HTML note `http.Redirect` writes as the body of the answer to a GET. -/
def redirectNote (lib : StdLib) (r : Request) (url : String) (code : Nat) : String :=
  "<a href=\"" ++ lib.htmlEscape (lib.absolute r.URL.Path url) ++ "\">" ++ lib.StatusText code
    ++ "</a>.\n" ++ "\n"

/-- A response writer that records the status code, the header map and the
body sent, in the manner of `httptest.ResponseRecorder` (content-type sniffing
left out): the first `WriteHeader` fixes the status code, later ones are
ignored, and a `Write` before any `WriteHeader` sends status 200 first. -/
structure ResponseRecorder where
  Code : Nat
  HeaderMap : Header
  Body : String
  wroteHeader : Bool
deriving DecidableEq

namespace ResponseRecorder

/-- A fresh recorder, as `httptest.NewRecorder()` gives: status 200, no header,
empty body, nothing sent yet. -/
def NewRecorder : ResponseRecorder :=
  { Code := 200, HeaderMap := ∅, Body := "", wroteHeader := false }

/-- Method `WriteHeader` of the recorder. -/
def writeHeader (rw : ResponseRecorder) (code : Nat) : ResponseRecorder :=
  if rw.wroteHeader then rw else { rw with Code := code, wroteHeader := true }

/-- Method `Write` of the recorder. -/
def write (rw : ResponseRecorder) (buf : String) : ResponseRecorder :=
  let rw := writeHeader rw 200
  { rw with Body := rw.Body ++ buf }

/-- Go `rw.Header().Set(key, value)`. -/
def headerSet (rw : ResponseRecorder) (key value : String) : ResponseRecorder :=
  { rw with HeaderMap := rw.HeaderMap.insert key [value] }

end ResponseRecorder

instance : ResponseWriter ResponseRecorder where
  Header := fun rw => rw.HeaderMap
  HeaderSet := ResponseRecorder.headerSet
  WriteHeader := ResponseRecorder.writeHeader
  Write := ResponseRecorder.write

/-- A writer paired with a counter of calls made to an instrumented handler;
the interface methods act on the writer and leave the counter alone. -/
instance {σ : Type} [ResponseWriter σ] : ResponseWriter (σ × Nat) where
  Header := fun w => ResponseWriter.Header w.1
  HeaderSet := fun w k v => (ResponseWriter.HeaderSet w.1 k v, w.2)
  WriteHeader := fun w c => (ResponseWriter.WriteHeader w.1 c, w.2)
  Write := fun w b => (ResponseWriter.Write w.1 b, w.2)

/-- Instruments a handler: each call to it adds one to the counter. -/
def counted {σ : Type} (h : Handler σ) : Handler (σ × Nat) :=
  fun w r => (h w.1 r, w.2 + 1)

/-! ## handler.go -/

/-- MapHandler of handler.go: the returned closure looks the request path up
in the map; on a hit it calls `http.Redirect` with `http.StatusFound` and
returns, otherwise it calls the fallback. -/
def MapHandler {σ : Type} [ResponseWriter σ] (lib : StdLib) (pathsToUrls : GoMap)
    (fallback : Handler σ) : Handler σ :=
  fun rw r =>
    let path := r.URL.Path
    match pathsToUrls.index path with
    | (value, true) => Redirect lib rw r value StatusFound
    | (_, false) => fallback rw r

/-- Go `[]byte`. -/
abbrev Bytes := List UInt8

/-- Signature of `yaml.Unmarshal(in, &out)` at `out : []T`: from the input
bytes and the current contents of `out` it gives the contents of `out`
afterwards and the error (`none` is Go's `nil`). -/
abbrev Unmarshaler (ε : Type) := Bytes → List T → List T × Option ε

/-- The function parseYAML of handler.go. -/
def parseYAML {ε : Type} (Unmarshal : Unmarshaler ε) (yml : Bytes) : List T × Option ε :=
  let parsedYAML : List T := []
  match Unmarshal yml parsedYAML with
  | (_, some err) => ([], some err)
  | (parsedYAML, none) => (parsedYAML, none)

/-- The function buildMap of handler.go. -/
def buildMap (parsedYAML : List T) : GoMap :=
  parsedYAML.foldl (fun yamlMap yml => yamlMap.assign yml.Path yml.URL) GoMap.make

/-- YAMLHandler of handler.go: the pair of the returned handler (`none` is
Go's `nil`) and the returned error. -/
def YAMLHandler {σ ε : Type} [ResponseWriter σ] (lib : StdLib) (Unmarshal : Unmarshaler ε)
    (yml : Bytes) (fallback : Handler σ) : Option (Handler σ) × Option ε :=
  match parseYAML Unmarshal yml with
  | (_, some err) => (none, some err)
  | (parsedYAML, none) =>
    let pathMap := buildMap parsedYAML
    (some (MapHandler lib pathMap fallback), none)

/-! ## The closure of MapHandler on the captured map and the writer -/

/-- What a call of the closure returned by MapHandler works on: the map
variable `pathsToUrls` the closure captured and the writer `rw` of the call. -/
structure ClosureState (σ : Type) where
  pathsToUrls : GoMap
  rw : σ

namespace ClosureState

/-- Go index expression `value, ok := pathsToUrls[k]`: it yields the two
values and writes nothing. -/
def mapIndex {σ : Type} (st : ClosureState σ) (k : String) :
    (String × Bool) × ClosureState σ :=
  (st.pathsToUrls.index k, st)

/-- Go assignment `pathsToUrls[k] = v`. -/
def mapAssign {σ : Type} (st : ClosureState σ) (k v : String) : ClosureState σ :=
  { st with pathsToUrls := st.pathsToUrls.assign k v }

/-- A call `h(rw, r)` made by the closure: the callee is handed the writer and
the request, not the map. -/
def call {σ : Type} (st : ClosureState σ) (h : Handler σ) (r : Request) : ClosureState σ :=
  { st with rw := h st.rw r }

end ClosureState

/-- The closure body of MapHandler (handler.go:15-22), statement by statement
on the closure state: the index expression on the captured map, then either
the call of `http.Redirect` and return, or the call of the fallback. -/
def MapHandlerBody {σ : Type} [ResponseWriter σ] (lib : StdLib) (fallback : Handler σ)
    (st : ClosureState σ) (r : Request) : ClosureState σ :=
  let path := r.URL.Path
  match st.mapIndex path with
  | ((value, true), st) => st.call (fun rw r => Redirect lib rw r value StatusFound) r
  | ((_, false), st) => st.call fallback r

/-- A sequence of requests served by the closure one after the other. -/
def serveAll {σ : Type} [ResponseWriter σ] (lib : StdLib) (fallback : Handler σ)
    (st : ClosureState σ) (rs : List Request) : ClosureState σ :=
  rs.foldl (MapHandlerBody lib fallback) st

/-! ## Reference for the duplicate-path policy -/

/-- The URL of the last record of the sequence whose path is `p`, if any. -/
def lastURL : List T → String → Option String
  | [], _ => none
  | t :: rs, p =>
    match lastURL rs p with
    | some u => some u
    | none => if t.Path = p then some t.URL else none

/-! ## Concrete inputs used in examples -/

/-- The table of the end-to-end scenario. -/
def googleTable : GoMap := GoMap.make.assign "/google" "https://www.google.com"

/-- A fallback answering 404 with body "not found". -/
def notFound {σ : Type} [ResponseWriter σ] : Handler σ :=
  fun rw _ => ResponseWriter.Write (ResponseWriter.WriteHeader rw StatusNotFound) "not found"

/-- A standard library instance whose string helpers leave their argument
alone (as the real ones do on an absolute ASCII URL without HTML
metacharacters) and which knows the status text of 302. -/
def plainLib : StdLib :=
  { absolute := fun _ url => url
    hexEscapeNonASCII := fun s => s
    htmlEscape := fun s => s
    StatusText := fun code => if code = 302 then "Found" else "" }

/-- A fallback answering 418 with no body. -/
def teapot {σ : Type} [ResponseWriter σ] : Handler σ :=
  fun rw _ => ResponseWriter.WriteHeader rw 418

/-- Three records, two of them with the path `/a`. -/
def duplicateRecords : List T :=
  [⟨"/a", "https://first.example"⟩, ⟨"/b", "https://other.example"⟩,
   ⟨"/a", "https://second.example"⟩]

/-- Bytes of the configuration of the end-to-end scenario. -/
def urlshortConfig : Bytes :=
  "- path: /urlshort\n  url: https://github.com/gophercises/urlshort".toUTF8.data.toList

/-- The record the configuration of the end-to-end scenario decodes to. -/
def urlshortRecord : T := ⟨"/urlshort", "https://github.com/gophercises/urlshort"⟩

/-- A decoder that knows one document: on `urlshortConfig` it stores the single
record and succeeds, on any other input it fails with a message. -/
def sampleUnmarshal : Unmarshaler String :=
  fun yml out =>
    if yml = urlshortConfig then ([urlshortRecord], none)
    else (out, some "yaml: unmarshal errors")

/-- A decoder that fails after it has already stored one record. -/
def failingUnmarshal : Unmarshaler String :=
  fun _ _ => ([urlshortRecord], some "yaml: line 2: cannot unmarshal")

/-! ## Lemmas on the map operations -/

theorem GoMap.index_of_lookup {m : GoMap} {k v : String} (h : m.lookup k = some v) :
    m.index k = (v, true) := by
  simp [GoMap.index, h]

theorem GoMap.index_of_not_mem {m : GoMap} {k : String} (h : k ∉ m.keys) :
    m.index k = ("", false) := by
  have h' : m.lookup k = none := AList.lookup_eq_none.mpr (fun hk => h (AList.mem_keys.mp hk))
  simp [GoMap.index, h']

theorem GoMap.index_ok_iff (m : GoMap) (k : String) :
    (m.index k).2 = true ↔ k ∈ m.keys := by
  cases h : m.lookup k with
  | none =>
    have hk : k ∉ m.keys := fun hk => AList.lookup_eq_none.mp h (AList.mem_keys.mpr hk)
    simp [GoMap.index, h, hk]
  | some v =>
    have hk : k ∈ m.keys := by
      have : (m.lookup k).isSome := by simp [h]
      exact AList.mem_keys.mp (AList.lookup_isSome.mp this)
    simp [GoMap.index, h, hk]

theorem GoMap.lookup_of_mem {m : GoMap} {k : String} (h : k ∈ m.keys) :
    ∃ v, m.lookup k = some v := by
  have : (m.lookup k).isSome := AList.lookup_isSome.mpr (AList.mem_keys.mpr h)
  exact Option.isSome_iff_exists.mp this

/-! ## Lemmas on the decoding of the request path -/

theorem unescapeChars_of_no_percent (l : List Char) (h : '%' ∉ l) :
    unescapeChars l = some l := by
  induction l with
  | nil => rfl
  | cons c rest ih =>
    have hc : c ≠ '%' := fun e => h (by simp [e])
    have hr : '%' ∉ rest := fun e => h (List.mem_cons_of_mem _ e)
    unfold unescapeChars
    simp only [if_neg hc, ih hr]
    rfl

theorem setPath_of_no_percent (p : String) (h : '%' ∉ p.data) :
    URL.setPath p = some ⟨p⟩ := by
  simp [URL.setPath, unescape, unescapeChars_of_no_percent p.data h]

/-! ## Lemmas on dispatch -/

theorem MapHandler_hit {σ : Type} [ResponseWriter σ] (lib : StdLib) {t : GoMap}
    (fallback : Handler σ) (rw : σ) {r : Request} {v : String}
    (h : t.lookup r.URL.Path = some v) :
    MapHandler lib t fallback rw r = Redirect lib rw r v StatusFound := by
  simp [MapHandler, GoMap.index_of_lookup h]

theorem MapHandler_miss {σ : Type} [ResponseWriter σ] (lib : StdLib) {t : GoMap}
    (fallback : Handler σ) (rw : σ) {r : Request} (h : r.URL.Path ∉ t.keys) :
    MapHandler lib t fallback rw r = fallback rw r := by
  simp [MapHandler, GoMap.index_of_not_mem h]

/-- On a writer paired with a call counter, `http.Redirect` acts on the writer
and leaves the counter alone. -/
theorem Redirect_counter {σ : Type} [ResponseWriter σ] (lib : StdLib) (w : σ) (n : Nat)
    (r : Request) (url : String) (code : Nat) :
    Redirect lib (w, n) r url code = (Redirect lib w r url code, n) := by
  unfold Redirect
  simp only [ResponseWriter.Header, ResponseWriter.HeaderSet, ResponseWriter.WriteHeader,
    ResponseWriter.Write]
  split_ifs <;> rfl

theorem MapHandler_counted_hit {σ : Type} [ResponseWriter σ] (lib : StdLib) {t : GoMap}
    (fallback : Handler σ) (w : σ) (n : Nat) {r : Request} {v : String}
    (h : t.lookup r.URL.Path = some v) :
    (MapHandler lib t (counted fallback) (w, n) r).2 = n := by
  rw [MapHandler_hit lib (counted fallback) (w, n) h, Redirect_counter]

theorem MapHandler_counted_miss {σ : Type} [ResponseWriter σ] (lib : StdLib) {t : GoMap}
    (fallback : Handler σ) (w : σ) (n : Nat) {r : Request} (h : r.URL.Path ∉ t.keys) :
    (MapHandler lib t (counted fallback) (w, n) r).2 = n + 1 := by
  rw [MapHandler_miss lib (counted fallback) (w, n) h]
  rfl

/-- Whether the fallback is called depends on the table and the request only,
not on the state of the writer. -/
theorem MapHandler_counted_writer {σ : Type} [ResponseWriter σ] (lib : StdLib) (t : GoMap)
    (fallback : Handler σ) (w w' : σ) (n : Nat) (r : Request) :
    (MapHandler lib t (counted fallback) (w, n) r).2
      = (MapHandler lib t (counted fallback) (w', n) r).2 := by
  by_cases hk : r.URL.Path ∈ t.keys
  · obtain ⟨v, hv⟩ := GoMap.lookup_of_mem hk
    rw [MapHandler_counted_hit lib fallback w n hv, MapHandler_counted_hit lib fallback w' n hv]
  · rw [MapHandler_counted_miss lib fallback w n hk, MapHandler_counted_miss lib fallback w' n hk]

/-! ## What `http.Redirect` leaves in a recorder -/

theorem Redirect_Code (lib : StdLib) (rw : ResponseRecorder) (r : Request) (url : String)
    (code : Nat) (h : rw.wroteHeader = false) :
    (Redirect lib rw r url code).Code = code := by
  unfold Redirect
  simp only [ResponseWriter.Header, ResponseWriter.HeaderSet, ResponseWriter.WriteHeader,
    ResponseWriter.Write]
  split_ifs <;>
    simp [ResponseRecorder.write, ResponseRecorder.writeHeader, ResponseRecorder.headerSet, h]

theorem Redirect_Location (lib : StdLib) (rw : ResponseRecorder) (r : Request) (url : String)
    (code : Nat) :
    (Redirect lib rw r url code).HeaderMap.lookup "Location"
      = some [lib.hexEscapeNonASCII (lib.absolute r.URL.Path url)] := by
  have hne : ("Location" : String) ≠ "Content-Type" := by decide
  unfold Redirect
  simp only [ResponseWriter.Header, ResponseWriter.HeaderSet, ResponseWriter.WriteHeader,
    ResponseWriter.Write]
  split_ifs <;>
    simp only [ResponseRecorder.write, ResponseRecorder.writeHeader,
      ResponseRecorder.headerSet] <;>
    split_ifs <;>
    simp [AList.lookup_insert_ne hne, AList.lookup_insert]

theorem Redirect_Body (lib : StdLib) (rw : ResponseRecorder) (r : Request) (url : String)
    (code : Nat) :
    (Redirect lib rw r url code).Body
      = if (rw.HeaderMap.lookup "Content-Type").isSome = false ∧ r.Method = "GET" then
          rw.Body ++ redirectNote lib r url code
        else rw.Body := by
  unfold Redirect redirectNote
  simp only [ResponseWriter.Header, ResponseWriter.HeaderSet, ResponseWriter.WriteHeader,
    ResponseWriter.Write]
  by_cases hct : (rw.HeaderMap.lookup "Content-Type").isSome = true
  · simp [hct, ResponseRecorder.writeHeader, ResponseRecorder.headerSet]
    split_ifs <;> rfl
  · by_cases hm : r.Method = "GET"
    · simp [hct, hm, ResponseRecorder.write, ResponseRecorder.writeHeader,
        ResponseRecorder.headerSet]
      split_ifs <;> simp [String.append_assoc]
    · simp [hct, hm, ResponseRecorder.writeHeader, ResponseRecorder.headerSet]
      split_ifs <;> rfl

theorem redirectNote_ne_empty (lib : StdLib) (r : Request) (url : String) (code : Nat) :
    redirectNote lib r url code ≠ "" := by
  intro h
  have hl := congrArg String.length h
  simp only [redirectNote, String.length_append] at hl
  have h1 : ("\n" : String).length = 1 := by decide
  have h0 : ("" : String).length = 0 := by decide
  omega

/-! ## Lemmas on buildMap -/

theorem lookup_foldl_assign (rs : List T) (m : GoMap) (p : String) :
    (rs.foldl (fun yamlMap yml => yamlMap.assign yml.Path yml.URL) m).lookup p
      = (lastURL rs p).orElse (fun _ => m.lookup p) := by
  induction rs generalizing m with
  | nil => simp [lastURL]
  | cons t rs ih =>
    simp only [List.foldl_cons, ih, lastURL]
    cases h : lastURL rs p with
    | some u => simp
    | none =>
      by_cases hp : t.Path = p
      · subst hp; simp [GoMap.assign, AList.lookup_insert]
      · simp [hp, GoMap.assign, AList.lookup_insert_ne (Ne.symm hp)]

theorem lookup_buildMap (rs : List T) (p : String) :
    (buildMap rs).lookup p = lastURL rs p := by
  unfold buildMap
  rw [lookup_foldl_assign]
  cases lastURL rs p <;> simp [GoMap.make]

theorem lastURL_eq_none {rs : List T} {p : String} :
    lastURL rs p = none ↔ ∀ t ∈ rs, t.Path ≠ p := by
  induction rs with
  | nil => simp [lastURL]
  | cons t rs ih =>
    simp only [lastURL, List.mem_cons, forall_eq_or_imp]
    cases h : lastURL rs p with
    | some u =>
      have : ¬ ∀ t ∈ rs, t.Path ≠ p := fun hall => by simp [ih.mpr hall] at h
      simp [this]
    | none =>
      have hrs : ∀ a ∈ rs, ¬ a.Path = p := ih.mp h
      by_cases hp : t.Path = p
      · simp [hp]
      · simp only [hp, if_false, ne_eq, not_false_eq_true, true_and, true_iff]
        exact hrs

theorem lastURL_mem {rs : List T} {p u : String} (h : lastURL rs p = some u) :
    ∃ t ∈ rs, t.Path = p ∧ t.URL = u := by
  induction rs with
  | nil => simp [lastURL] at h
  | cons t rs ih =>
    simp only [lastURL] at h
    cases h' : lastURL rs p with
    | some w =>
      rw [h'] at h
      simp only [Option.some.injEq] at h
      obtain ⟨t', ht', hp, hu⟩ := ih (h ▸ h')
      exact ⟨t', List.mem_cons_of_mem _ ht', hp, hu⟩
    | none =>
      rw [h'] at h
      by_cases hp : t.Path = p
      · simp only [hp, if_true, Option.some.injEq] at h
        exact ⟨t, List.mem_cons_self _ _, hp, h⟩
      · simp [hp] at h

theorem lastURL_append_cons (pre post : List T) (rec : T)
    (h : ∀ t ∈ post, t.Path ≠ rec.Path) :
    lastURL (pre ++ rec :: post) rec.Path = some rec.URL := by
  induction pre with
  | nil => simp [lastURL, lastURL_eq_none.mpr h]
  | cons t pre ih => simp [lastURL, ih]

theorem exists_last_record {rs : List T} {p : String} (h : ∃ t ∈ rs, t.Path = p) :
    ∃ pre rec post, rs = pre ++ rec :: post ∧ rec.Path = p ∧ ∀ t ∈ post, t.Path ≠ p := by
  induction rs with
  | nil => simp at h
  | cons t rs ih =>
    by_cases hrs : ∃ t ∈ rs, t.Path = p
    · obtain ⟨pre, rec, post, hrs', hp, hpost⟩ := ih hrs
      exact ⟨t :: pre, rec, post, by simp [hrs'], hp, hpost⟩
    · have ht : t.Path = p := by
        obtain ⟨t', ht', hp⟩ := h
        rcases List.mem_cons.mp ht' with rfl | hmem
        · exact hp
        · exact absurd ⟨t', hmem, hp⟩ hrs
      refine ⟨[], t, rs, rfl, ht, ?_⟩
      intro t' ht' hp
      exact hrs ⟨t', ht', hp⟩

theorem len_foldl_assign (rs : List T) (m : GoMap) :
    (rs.foldl (fun yamlMap yml => yamlMap.assign yml.Path yml.URL) m).len
      ≤ m.len + rs.length := by
  induction rs generalizing m with
  | nil => simp
  | cons t rs ih =>
    simp only [List.foldl_cons, List.length_cons]
    refine le_trans (ih _) ?_
    have : (m.assign t.Path t.URL).len ≤ m.len + 1 := by
      simp only [GoMap.assign, GoMap.len, AList.insert_entries, List.length_cons]
      exact Nat.succ_le_succ (List.Sublist.length_le (List.kerase_sublist _ _))
    omega

/-! ## Dispatch: hit and miss -/

/-- C1: for every table, fallback and request whose URL path is a key of the
table, the handler returned by MapHandler answers with `http.Redirect` at
status 302 (`http.StatusFound`), the target being exactly the table's value
for that path. -/
theorem C1_hit_redirects {σ : Type} [ResponseWriter σ] (lib : StdLib) (table : GoMap)
    (fallback : Handler σ) (rw : σ) (r : Request) (h : r.URL.Path ∈ table.keys) :
    StatusFound = 302 ∧
    ∃ value, table.lookup r.URL.Path = some value ∧
      MapHandler lib table fallback rw r = Redirect lib rw r value 302 := by
  obtain ⟨value, hv⟩ := GoMap.lookup_of_mem h
  exact ⟨rfl, value, hv, MapHandler_hit lib fallback rw hv⟩

/-- C1 on the scenario of the spec: table with `/google`, request path
`/google` gives status 302 and Location `https://www.google.com`. -/
theorem C1_hit_redirects_witness :
    "/google" ∈ googleTable.keys ∧
    (StatusFound = 302 ∧
      ∃ value, googleTable.lookup "/google" = some value ∧
        MapHandler plainLib googleTable notFound ResponseRecorder.NewRecorder
            ⟨"GET", ⟨"/google"⟩⟩
          = Redirect plainLib ResponseRecorder.NewRecorder ⟨"GET", ⟨"/google"⟩⟩ value 302) ∧
    googleTable.lookup "/google" = some "https://www.google.com" ∧
    (MapHandler plainLib googleTable notFound ResponseRecorder.NewRecorder
      ⟨"GET", ⟨"/google"⟩⟩).Code = 302 ∧
    (MapHandler plainLib googleTable notFound ResponseRecorder.NewRecorder
      ⟨"GET", ⟨"/google"⟩⟩).HeaderMap.lookup "Location" = some ["https://www.google.com"] :=
  ⟨by decide,
   C1_hit_redirects plainLib googleTable notFound ResponseRecorder.NewRecorder
     ⟨"GET", ⟨"/google"⟩⟩ (by decide),
   by decide, by decide, by decide⟩

/-- C2: for every table, fallback and request whose URL path is not a key of
the table, the handler returned by MapHandler leaves the response writer
exactly as `fallback.ServeHTTP` leaves it for the same request and writer. -/
theorem C2_miss_delegates {σ : Type} [ResponseWriter σ] (lib : StdLib) (table : GoMap)
    (fallback : Handler σ) (rw : σ) (r : Request) (h : r.URL.Path ∉ table.keys) :
    MapHandler lib table fallback rw r = fallback rw r :=
  MapHandler_miss lib fallback rw h

/-- C2 on the scenario of the spec: request path `/bing` gives the fallback's
404 "not found", with no Location header. -/
theorem C2_miss_delegates_witness :
    "/bing" ∉ googleTable.keys ∧
    MapHandler plainLib googleTable notFound ResponseRecorder.NewRecorder ⟨"GET", ⟨"/bing"⟩⟩
      = notFound ResponseRecorder.NewRecorder ⟨"GET", ⟨"/bing"⟩⟩ ∧
    (notFound ResponseRecorder.NewRecorder ⟨"GET", ⟨"/bing"⟩⟩).Code = 404 ∧
    (notFound ResponseRecorder.NewRecorder ⟨"GET", ⟨"/bing"⟩⟩).Body = "not found" ∧
    (notFound ResponseRecorder.NewRecorder ⟨"GET", ⟨"/bing"⟩⟩).HeaderMap.lookup "Location"
      = none :=
  ⟨by decide,
   C2_miss_delegates plainLib googleTable notFound ResponseRecorder.NewRecorder
     ⟨"GET", ⟨"/bing"⟩⟩ (by decide),
   by decide, by decide, by decide⟩

/-- C6: on a hit the fallback is not invoked (a fallback instrumented with a
call counter leaves the counter where it was), and the handler's result is the
same for every choice of fallback. -/
theorem C6_hit_ignores_fallback {σ : Type} [ResponseWriter σ] (lib : StdLib) (table : GoMap)
    (rw : σ) (n : Nat) (r : Request) (h : r.URL.Path ∈ table.keys) :
    (∀ fallback : Handler σ, (MapHandler lib table (counted fallback) (rw, n) r).2 = n) ∧
    (∀ f₁ f₂ : Handler σ, MapHandler lib table f₁ rw r = MapHandler lib table f₂ rw r) := by
  obtain ⟨value, hv⟩ := GoMap.lookup_of_mem h
  refine ⟨fun fallback => ?_, fun f₁ f₂ => ?_⟩
  · exact MapHandler_counted_hit lib fallback rw n hv
  · rw [MapHandler_hit lib f₁ rw hv, MapHandler_hit lib f₂ rw hv]

/-- C6 on the `/google` table: the counting 404 fallback is never called, and
the 404 and the 418 fallback give the same recorder. -/
theorem C6_hit_ignores_fallback_witness :
    "/google" ∈ googleTable.keys ∧
    (MapHandler plainLib googleTable (counted notFound)
      (ResponseRecorder.NewRecorder, 0) ⟨"GET", ⟨"/google"⟩⟩).2 = 0 ∧
    MapHandler plainLib googleTable notFound ResponseRecorder.NewRecorder ⟨"GET", ⟨"/google"⟩⟩
      = MapHandler plainLib googleTable teapot ResponseRecorder.NewRecorder
          ⟨"GET", ⟨"/google"⟩⟩ :=
  have hw := C6_hit_ignores_fallback plainLib googleTable ResponseRecorder.NewRecorder 0
    ⟨"GET", ⟨"/google"⟩⟩ (by decide)
  ⟨by decide, hw.1 notFound, hw.2 notFound teapot⟩

/-- C7 fails as stated for percent-encoding: the path `/%67oogle` differs from
the only key `/google` of the table, yet the request the server hands over for
the target `/%67oogle` carries the decoded path `/google`, the fallback is not
called and the answer is the 302 redirect to `https://www.google.com`. -/
theorem C7_percent_encoded_target_hits :
    "/%67oogle" ∉ googleTable.keys ∧
    serverRequest "GET" "/%67oogle" = some ⟨"GET", ⟨"/google"⟩⟩ ∧
    (MapHandler plainLib googleTable (counted notFound) (ResponseRecorder.NewRecorder, 0)
      ⟨"GET", ⟨"/google"⟩⟩).2 = 0 ∧
    (MapHandler plainLib googleTable notFound ResponseRecorder.NewRecorder
      ⟨"GET", ⟨"/google"⟩⟩).Code = 302 ∧
    (MapHandler plainLib googleTable notFound ResponseRecorder.NewRecorder
      ⟨"GET", ⟨"/google"⟩⟩).HeaderMap.lookup "Location" = some ["https://www.google.com"] ∧
    MapHandler plainLib googleTable notFound ResponseRecorder.NewRecorder ⟨"GET", ⟨"/google"⟩⟩
      ≠ notFound ResponseRecorder.NewRecorder ⟨"GET", ⟨"/google"⟩⟩ := by
  refine ⟨by decide, by decide, by decide, by decide, by decide, by decide⟩

/-- C7 as amended: lookup is verbatim on `r.URL.Path`, the handler normalizes
nothing.  The fallback is left uncalled (a hit) exactly when `r.URL.Path`
equals some key of the table, and it is called once (a miss) exactly when it
differs from every key.  A raw path without `%` reaches the handler as
presented, so with the table holding `/google` the requests for `/google/` and
`/Google` go to the fallback whatever the method.  Percent-encoding is decoded
by net/http before the handler runs: the request for `/%67oogle` arrives with
path `/google` and is redirected, and only a request whose decoded path is the
string `/%67oogle` (target `/%2567oogle`) goes to the fallback. -/
theorem C7_lookup_verbatim_on_decoded_path {σ : Type} [ResponseWriter σ] (lib : StdLib)
    (table : GoMap) (fallback : Handler σ) (rw : σ) (r : Request) :
    ((MapHandler lib table (counted fallback) (rw, 0) r).2 = 0
      ↔ ∃ k ∈ table.keys, r.URL.Path = k) ∧
    ((MapHandler lib table (counted fallback) (rw, 0) r).2 = 1
      ↔ ∀ k ∈ table.keys, r.URL.Path ≠ k) ∧
    (∀ method rawPath : String, '%' ∉ rawPath.data →
      serverRequest method rawPath = some ⟨method, ⟨rawPath⟩⟩) ∧
    (∀ method : String,
      serverRequest method "/google/" = some ⟨method, ⟨"/google/"⟩⟩ ∧
      MapHandler lib googleTable fallback rw ⟨method, ⟨"/google/"⟩⟩
        = fallback rw ⟨method, ⟨"/google/"⟩⟩ ∧
      serverRequest method "/Google" = some ⟨method, ⟨"/Google"⟩⟩ ∧
      MapHandler lib googleTable fallback rw ⟨method, ⟨"/Google"⟩⟩
        = fallback rw ⟨method, ⟨"/Google"⟩⟩) ∧
    (∀ method : String,
      serverRequest method "/%67oogle" = some ⟨method, ⟨"/google"⟩⟩ ∧
      MapHandler lib googleTable fallback rw ⟨method, ⟨"/google"⟩⟩
        = Redirect lib rw ⟨method, ⟨"/google"⟩⟩ "https://www.google.com" 302 ∧
      (MapHandler lib googleTable (counted fallback) (rw, 0) ⟨method, ⟨"/google"⟩⟩).2 = 0) ∧
    (∀ method : String,
      serverRequest method "/%2567oogle" = some ⟨method, ⟨"/%67oogle"⟩⟩ ∧
      MapHandler lib googleTable fallback rw ⟨method, ⟨"/%67oogle"⟩⟩
        = fallback rw ⟨method, ⟨"/%67oogle"⟩⟩) := by
  have hkey : (∃ k ∈ table.keys, r.URL.Path = k) ↔ r.URL.Path ∈ table.keys :=
    ⟨fun ⟨_, hk, he⟩ => he ▸ hk, fun hk => ⟨_, hk, rfl⟩⟩
  have hnot : (∀ k ∈ table.keys, r.URL.Path ≠ k) ↔ r.URL.Path ∉ table.keys :=
    ⟨fun hall hk => hall _ hk rfl, fun hn k hk he => hn (he ▸ hk)⟩
  have hsp : ∀ p q : String, URL.setPath p = some ⟨q⟩ →
      ∀ method : String, serverRequest method p = some ⟨method, ⟨q⟩⟩ := by
    intro p q h method
    simp [serverRequest, h]
  have hgoogle : googleTable.lookup "/google" = some "https://www.google.com" := by decide
  rw [hkey, hnot]
  refine ⟨?_, ?_, fun method rawPath h => ?_, fun method => ⟨?_, ?_, ?_, ?_⟩,
    fun method => ⟨?_, ?_, ?_⟩, fun method => ⟨?_, ?_⟩⟩
  · by_cases hk : r.URL.Path ∈ table.keys
    · obtain ⟨value, hv⟩ := GoMap.lookup_of_mem hk
      simp [MapHandler_counted_hit lib fallback rw 0 hv, hk]
    · simp [MapHandler_counted_miss lib fallback rw 0 hk, hk]
  · by_cases hk : r.URL.Path ∈ table.keys
    · obtain ⟨value, hv⟩ := GoMap.lookup_of_mem hk
      simp [MapHandler_counted_hit lib fallback rw 0 hv, hk]
    · simp [MapHandler_counted_miss lib fallback rw 0 hk, hk]
  · exact hsp rawPath rawPath (setPath_of_no_percent rawPath h) method
  · exact hsp _ _ (by decide) method
  · have hk : "/google/" ∉ googleTable.keys := by decide
    exact MapHandler_miss lib fallback rw hk
  · exact hsp _ _ (by decide) method
  · have hk : "/Google" ∉ googleTable.keys := by decide
    exact MapHandler_miss lib fallback rw hk
  · exact hsp _ _ (by decide) method
  · exact MapHandler_hit lib fallback rw hgoogle
  · exact MapHandler_counted_hit lib fallback rw 0 hgoogle
  · exact hsp _ _ (by decide) method
  · have hk : "/%67oogle" ∉ googleTable.keys := by decide
    exact MapHandler_miss lib fallback rw hk

/-! ## The response on a hit -/

/-- C8 fails as stated: on the `/google` table a GET of `/google` is a hit and
the recorder ends with a body that is not empty, namely the HTML note that
`http.Redirect` writes; this holds whatever the string helpers return. -/
theorem C8_get_body_not_empty :
    googleTable.lookup "/google" = some "https://www.google.com" ∧
    (MapHandler plainLib googleTable notFound ResponseRecorder.NewRecorder
      ⟨"GET", ⟨"/google"⟩⟩).Body = "<a href=\"https://www.google.com\">Found</a>.\n\n" ∧
    (∀ lib : StdLib,
      (MapHandler lib googleTable notFound ResponseRecorder.NewRecorder
        ⟨"GET", ⟨"/google"⟩⟩).Body ≠ "") := by
  refine ⟨by decide, by decide, fun lib => ?_⟩
  have hv : googleTable.lookup (⟨"GET", ⟨"/google"⟩⟩ : Request).URL.Path
      = some "https://www.google.com" := by decide
  have hct : (ResponseRecorder.NewRecorder.HeaderMap.lookup "Content-Type").isSome = false := by
    decide
  have hb : ResponseRecorder.NewRecorder.Body = "" := rfl
  rw [MapHandler_hit lib notFound ResponseRecorder.NewRecorder hv, Redirect_Body, hb]
  simp only [hct, true_and, if_true, String.empty_append]
  exact redirectNote_ne_empty lib _ _ _

/-- C8 as amended: for every request method and table value, on a writer that
has not sent its header yet a hit gives status 302 and a Location header
holding the mapped URL as `http.Redirect` encodes it (the stored value itself
whenever Redirect's URL resolution and escaping leave it unchanged); the body
gets nothing for every method other than GET, and also nothing when a
Content-Type header was already set; for GET without one it gets the HTML note
of `http.Redirect`. -/
theorem C8_hit_response (lib : StdLib) (table : GoMap) (fallback : Handler ResponseRecorder)
    (rw : ResponseRecorder) (r : Request) (value : String)
    (hrw : rw.wroteHeader = false) (h : table.lookup r.URL.Path = some value) :
    (MapHandler lib table fallback rw r).Code = 302 ∧
    (MapHandler lib table fallback rw r).HeaderMap.lookup "Location"
      = some [lib.hexEscapeNonASCII (lib.absolute r.URL.Path value)] ∧
    (lib.hexEscapeNonASCII (lib.absolute r.URL.Path value) = value →
      (MapHandler lib table fallback rw r).HeaderMap.lookup "Location" = some [value]) ∧
    (r.Method ≠ "GET" → (MapHandler lib table fallback rw r).Body = rw.Body) ∧
    ((rw.HeaderMap.lookup "Content-Type").isSome = true →
      (MapHandler lib table fallback rw r).Body = rw.Body) ∧
    (r.Method = "GET" → (rw.HeaderMap.lookup "Content-Type").isSome = false →
      (MapHandler lib table fallback rw r).Body = rw.Body ++ redirectNote lib r value 302) := by
  rw [MapHandler_hit lib fallback rw h]
  refine ⟨Redirect_Code lib rw r value _ hrw, Redirect_Location lib rw r value _, ?_, ?_, ?_, ?_⟩
  · intro he
    rw [Redirect_Location, he]
  · intro hm
    rw [Redirect_Body]
    simp [hm]
  · intro hct
    rw [Redirect_Body]
    simp [hct]
  · intro hm hct
    rw [Redirect_Body]
    simp [hm, hct, StatusFound]

/-- C8 as amended, on the `/google` table with a POST: status 302, Location
`https://www.google.com`, empty body. -/
theorem C8_hit_response_witness :
    ResponseRecorder.NewRecorder.wroteHeader = false ∧
    googleTable.lookup "/google" = some "https://www.google.com" ∧
    (MapHandler plainLib googleTable notFound ResponseRecorder.NewRecorder
      ⟨"POST", ⟨"/google"⟩⟩).Code = 302 ∧
    (MapHandler plainLib googleTable notFound ResponseRecorder.NewRecorder
      ⟨"POST", ⟨"/google"⟩⟩).HeaderMap.lookup "Location" = some ["https://www.google.com"] ∧
    (MapHandler plainLib googleTable notFound ResponseRecorder.NewRecorder
      ⟨"POST", ⟨"/google"⟩⟩).Body = "" :=
  have hw := C8_hit_response plainLib googleTable notFound ResponseRecorder.NewRecorder
    ⟨"POST", ⟨"/google"⟩⟩ "https://www.google.com" rfl (by decide)
  ⟨rfl, by decide, hw.1, hw.2.1, hw.2.2.2.1 (by decide)⟩

/-! ## Repeated dispatch -/

/-- The body of the closure leaves the captured map as it found it and does to
the writer what the handler returned by MapHandler does. -/
theorem MapHandlerBody_eq {σ : Type} [ResponseWriter σ] (lib : StdLib) (fallback : Handler σ)
    (st : ClosureState σ) (r : Request) :
    MapHandlerBody lib fallback st r
      = { pathsToUrls := st.pathsToUrls
          rw := MapHandler lib st.pathsToUrls fallback st.rw r } := by
  unfold MapHandlerBody MapHandler ClosureState.mapIndex
  rcases h : st.pathsToUrls.index r.URL.Path with ⟨value, _ | _⟩ <;>
    simp only [h, ClosureState.call]

/-- An assignment to the map, by contrast, does change it: the operations on
the closure state can tell a body that writes from one that only reads. -/
theorem mapAssign_changes_table :
    ((⟨GoMap.make, ()⟩ : ClosureState Unit).mapIndex "/a").1 = ("", false) ∧
    ((ClosureState.mapAssign (⟨GoMap.make, ()⟩ : ClosureState Unit) "/a" "b").mapIndex "/a").1
      = ("b", true) := by
  decide

theorem serveAll_pathsToUrls {σ : Type} [ResponseWriter σ] (lib : StdLib)
    (fallback : Handler σ) (st : ClosureState σ) (rs : List Request) :
    (serveAll lib fallback st rs).pathsToUrls = st.pathsToUrls := by
  unfold serveAll
  induction rs generalizing st with
  | nil => rfl
  | cons r rs ih => rw [List.foldl_cons, ih, MapHandlerBody_eq]

theorem serveAll_counted_replicate {σ : Type} [ResponseWriter σ] (lib : StdLib)
    (fallback : Handler σ) (t : GoMap) (w : σ) (k n : Nat) (r : Request) :
    (serveAll lib (counted fallback) ⟨t, (w, k)⟩ (List.replicate n r)).rw.2
      = if r.URL.Path ∈ t.keys then k else k + n := by
  unfold serveAll
  induction n generalizing w k with
  | zero => simp
  | succ n ih =>
    rw [List.replicate_succ, List.foldl_cons, MapHandlerBody_eq]
    by_cases hk : r.URL.Path ∈ t.keys
    · obtain ⟨v, hv⟩ := GoMap.lookup_of_mem hk
      have h2 := MapHandler_counted_hit lib fallback w k hv
      rcases hm : MapHandler lib t (counted fallback) (w, k) r with ⟨w', k'⟩
      rw [hm] at h2
      simp only at h2
      subst h2
      simpa [hk] using ih w' k'
    · have h2 := MapHandler_counted_miss lib fallback w k hk
      rcases hm : MapHandler lib t (counted fallback) (w, k) r with ⟨w', k'⟩
      rw [hm] at h2
      simp only at h2
      subst h2
      have := ih w' (k + 1)
      simp only [hk, if_false] at this ⊢
      rw [this]
      omega

/-- C9: dispatch is deterministic and does not change the table.  The body of
the closure, run on the captured map and a writer, leaves the map as it was
(it only evaluates an index expression on it) and does to the writer what the
handler does; so does any sequence of dispatches, in particular the same
request any number of times.  After any such sequence a request gets the same
lookup result as at first (hit or miss, and the value on a hit); served `n`
times in a row it is a hit each time (the fallback is never called) or a miss
each time (the fallback is called `n` times); the fallback is called for it
exactly if it was called at first, whatever the writers hold; and on a hit the
redirect goes to the same target. -/
theorem C9_dispatch_deterministic {σ : Type} [ResponseWriter σ] (lib : StdLib)
    (fallback : Handler σ) (st : ClosureState σ) (rs : List Request) (r : Request)
    (n k : Nat) :
    (MapHandlerBody lib fallback st r).pathsToUrls = st.pathsToUrls ∧
    (MapHandlerBody lib fallback st r).rw = MapHandler lib st.pathsToUrls fallback st.rw r ∧
    (serveAll lib fallback st rs).pathsToUrls = st.pathsToUrls ∧
    (serveAll lib fallback st (List.replicate n r)).pathsToUrls = st.pathsToUrls ∧
    ((serveAll lib fallback st rs).mapIndex r.URL.Path).1 = (st.mapIndex r.URL.Path).1 ∧
    (serveAll lib (counted fallback) ⟨st.pathsToUrls, (st.rw, k)⟩ (List.replicate n r)).rw.2
      = (if r.URL.Path ∈ st.pathsToUrls.keys then k else k + n) ∧
    (MapHandlerBody lib (counted fallback)
        ⟨(serveAll lib fallback st rs).pathsToUrls, ((serveAll lib fallback st rs).rw, k)⟩ r).rw.2
      = (MapHandlerBody lib (counted fallback) ⟨st.pathsToUrls, (st.rw, k)⟩ r).rw.2 ∧
    (∀ value, st.pathsToUrls.lookup r.URL.Path = some value →
      (MapHandlerBody lib fallback st r).rw = Redirect lib st.rw r value 302 ∧
      (MapHandlerBody lib fallback (serveAll lib fallback st rs) r).rw
        = Redirect lib (serveAll lib fallback st rs).rw r value 302) := by
  have hrun := serveAll_pathsToUrls lib fallback st rs
  refine ⟨?_, ?_, hrun, serveAll_pathsToUrls lib fallback st _, ?_,
    serveAll_counted_replicate lib fallback st.pathsToUrls st.rw k n r, ?_,
    fun value hv => ⟨?_, ?_⟩⟩
  · rw [MapHandlerBody_eq]
  · rw [MapHandlerBody_eq]
  · simp only [ClosureState.mapIndex, hrun]
  · rw [MapHandlerBody_eq, MapHandlerBody_eq, hrun]
    exact MapHandler_counted_writer lib st.pathsToUrls fallback _ _ k r
  · rw [MapHandlerBody_eq]
    exact MapHandler_hit lib fallback st.rw hv
  · rw [MapHandlerBody_eq, hrun]
    exact MapHandler_hit lib fallback (serveAll lib fallback st rs).rw hv

/-! ## buildMap -/

/-- C3: last occurrence wins in buildMap.  For every sequence of records and
every path occurring in at least one record, the sequence splits at the last
record with that path (no record after it has the path) and the map built
holds that record's URL at the path. -/
theorem C3_last_occurrence_wins (records : List T) (p : String)
    (h : ∃ t ∈ records, t.Path = p) :
    ∃ pre rec post, records = pre ++ rec :: post ∧ rec.Path = p ∧
      (∀ t ∈ post, t.Path ≠ p) ∧ (buildMap records).index p = (rec.URL, true) := by
  obtain ⟨pre, rec, post, hsplit, hp, hpost⟩ := exists_last_record h
  refine ⟨pre, rec, post, hsplit, hp, hpost, ?_⟩
  apply GoMap.index_of_lookup
  subst hp
  rw [lookup_buildMap, hsplit]
  exact lastURL_append_cons pre post rec hpost

/-- C3 on two records with the path `/a` and different URLs: the later URL is
the one stored. -/
theorem C3_last_occurrence_wins_witness :
    (∃ t ∈ duplicateRecords, t.Path = "/a") ∧
    (∃ pre rec post, duplicateRecords = pre ++ rec :: post ∧ rec.Path = "/a" ∧
      (∀ t ∈ post, t.Path ≠ "/a") ∧ (buildMap duplicateRecords).index "/a" = (rec.URL, true)) ∧
    (buildMap duplicateRecords).index "/a" = ("https://second.example", true) :=
  have h : ∃ t ∈ duplicateRecords, t.Path = "/a" := by decide
  ⟨h, C3_last_occurrence_wins duplicateRecords "/a" h, by decide⟩

/-- C10: buildMap adds no spurious entry and drops no path.  A string is a key
of the map built exactly when some record has it as path; every value stored
is the URL of a record with that path; the map has at most as many entries as
there are records; the empty sequence gives the empty map; and a handler on
the map built delegates every request whose path is in no record. -/
theorem C10_buildMap_keys {σ : Type} [ResponseWriter σ] (records : List T) (p : String) :
    (p ∈ (buildMap records).keys ↔ ∃ t ∈ records, t.Path = p) ∧
    (∀ v, (buildMap records).lookup p = some v → ∃ t ∈ records, t.Path = p ∧ t.URL = v) ∧
    (buildMap records).len ≤ records.length ∧
    (buildMap [] = GoMap.make ∧ (buildMap []).len = 0 ∧ (buildMap []).keys = []) ∧
    (∀ (lib : StdLib) (fallback : Handler σ) (rw : σ) (r : Request),
      (∀ t ∈ records, t.Path ≠ r.URL.Path) →
        MapHandler lib (buildMap records) fallback rw r = fallback rw r) := by
  have hkeys : ∀ q : String, q ∈ (buildMap records).keys ↔ ∃ t ∈ records, t.Path = q := by
    intro q
    rw [← GoMap.index_ok_iff]
    cases hl : lastURL records q with
    | none =>
      have hno := lastURL_eq_none.mp hl
      have hlk : (buildMap records).lookup q = none := by rw [lookup_buildMap, hl]
      simp only [GoMap.index, hlk]
      constructor
      · intro hf; cases hf
      · rintro ⟨t, ht, hq⟩; exact absurd hq (hno t ht)
    | some u =>
      obtain ⟨t, ht, hq, _⟩ := lastURL_mem hl
      have hlk : (buildMap records).lookup q = some u := by rw [lookup_buildMap, hl]
      simp only [GoMap.index, hlk]
      exact ⟨fun _ => ⟨t, ht, hq⟩, fun _ => trivial⟩
  refine ⟨hkeys p, ?_, ?_, ⟨rfl, rfl, rfl⟩, ?_⟩
  · intro v hv
    rw [lookup_buildMap] at hv
    exact lastURL_mem hv
  · have := len_foldl_assign records GoMap.make
    simpa [buildMap, GoMap.len, GoMap.make] using this
  · intro lib fallback rw r hno
    apply MapHandler_miss
    intro hk
    obtain ⟨t, ht, hq⟩ := (hkeys r.URL.Path).mp hk
    exact hno t ht hq

/-! ## YAMLHandler -/

theorem parseYAML_ok {ε : Type} {Unmarshal : Unmarshaler ε} {yml : Bytes} {out : List T}
    (h : Unmarshal yml [] = (out, none)) : parseYAML Unmarshal yml = (out, none) := by
  simp [parseYAML, h]

theorem parseYAML_err {ε : Type} {Unmarshal : Unmarshaler ε} {yml : Bytes} {out : List T}
    {err : ε} (h : Unmarshal yml [] = (out, some err)) :
    parseYAML Unmarshal yml = ([], some err) := by
  simp [parseYAML, h]

/-- C4: YAMLHandler returns an error exactly when decoding fails; then the
error is the decoder's error itself, no handler is returned, and parseYAML
returns the empty (nil) record list with the error, whatever the decoder had
stored (so also for a decoder that fails after storing a record); when
decoding succeeds a handler is returned with no error. -/
theorem C4_error_iff_decode_fails {σ ε : Type} [ResponseWriter σ] (lib : StdLib)
    (Unmarshal : Unmarshaler ε) (yml : Bytes) (fallback : Handler σ) :
    ((YAMLHandler lib Unmarshal yml fallback).2 ≠ none ↔ (Unmarshal yml []).2 ≠ none) ∧
    (YAMLHandler lib Unmarshal yml fallback).2 = (Unmarshal yml []).2 ∧
    (parseYAML Unmarshal yml).2 = (Unmarshal yml []).2 ∧
    (∀ err, (Unmarshal yml []).2 = some err →
      (YAMLHandler lib Unmarshal yml fallback).2 = some err ∧
      (YAMLHandler lib Unmarshal yml fallback).1.isNone = true ∧
      parseYAML Unmarshal yml = ([], some err)) ∧
    ((Unmarshal yml []).2 = none →
      (YAMLHandler lib Unmarshal yml fallback).1.isSome = true ∧
      (YAMLHandler lib Unmarshal yml fallback).2 = none ∧
      parseYAML Unmarshal yml = ((Unmarshal yml []).1, none)) ∧
    ((failingUnmarshal yml []).1 = [urlshortRecord] ∧
      parseYAML failingUnmarshal yml = ([], some "yaml: line 2: cannot unmarshal")) := by
  refine ⟨?_, ?_, ?_, ?_, ?_, rfl, rfl⟩ <;>
    rcases hU : Unmarshal yml [] with ⟨out, _ | err⟩ <;>
    first
      | (have hp := parseYAML_ok hU; simp [YAMLHandler, hp])
      | (have hp := parseYAML_err hU; simp [YAMLHandler, hp])

/-- C5: whenever decoding `yml` succeeds with the record sequence `rs`,
YAMLHandler returns no error and the handler
`MapHandler (buildMap rs) fallback`, so both behave the same on every writer
and request. -/
theorem C5_yaml_handler_is_map_handler {σ ε : Type} [ResponseWriter σ] (lib : StdLib)
    (Unmarshal : Unmarshaler ε) (yml : Bytes) (fallback : Handler σ) (rs : List T)
    (h : parseYAML Unmarshal yml = (rs, none)) :
    YAMLHandler lib Unmarshal yml fallback
      = (some (MapHandler lib (buildMap rs) fallback), none) ∧
    ∃ handler, (YAMLHandler lib Unmarshal yml fallback).1 = some handler ∧
      ∀ (rw : σ) (r : Request), handler rw r = MapHandler lib (buildMap rs) fallback rw r := by
  have hy : YAMLHandler lib Unmarshal yml fallback
      = (some (MapHandler lib (buildMap rs) fallback), none) := by
    unfold YAMLHandler
    rw [h]
  exact ⟨hy, MapHandler lib (buildMap rs) fallback, by rw [hy], fun _ _ => rfl⟩

/-- C5 on the end-to-end scenario: the configuration decodes to the single
record for `/urlshort`; the handler redirects `/urlshort` to the GitHub URL
and hands every other path to the fallback. -/
theorem C5_yaml_handler_is_map_handler_witness :
    parseYAML sampleUnmarshal urlshortConfig = ([urlshortRecord], none) ∧
    (YAMLHandler plainLib sampleUnmarshal urlshortConfig (notFound : Handler ResponseRecorder)
        = (some (MapHandler plainLib (buildMap [urlshortRecord]) notFound), none) ∧
      ∃ handler,
        (YAMLHandler plainLib sampleUnmarshal urlshortConfig
          (notFound : Handler ResponseRecorder)).1 = some handler ∧
        ∀ (rw : ResponseRecorder) (r : Request),
          handler rw r = MapHandler plainLib (buildMap [urlshortRecord]) notFound rw r) ∧
    (MapHandler plainLib (buildMap [urlshortRecord]) notFound ResponseRecorder.NewRecorder
      ⟨"GET", ⟨"/urlshort"⟩⟩).Code = 302 ∧
    (MapHandler plainLib (buildMap [urlshortRecord]) notFound ResponseRecorder.NewRecorder
      ⟨"GET", ⟨"/urlshort"⟩⟩).HeaderMap.lookup "Location"
        = some ["https://github.com/gophercises/urlshort"] ∧
    (∀ (rw : ResponseRecorder) (r : Request), r.URL.Path ≠ "/urlshort" →
      MapHandler plainLib (buildMap [urlshortRecord]) notFound rw r = notFound rw r) :=
  have hp : parseYAML sampleUnmarshal urlshortConfig = ([urlshortRecord], none) := by
    simp [parseYAML, sampleUnmarshal]
  have hk : (buildMap [urlshortRecord]).keys = ["/urlshort"] := by decide
  ⟨hp,
   C5_yaml_handler_is_map_handler plainLib sampleUnmarshal urlshortConfig notFound
     [urlshortRecord] hp,
   by decide, by decide,
   fun rw r hr => MapHandler_miss plainLib notFound rw (by rw [hk]; simpa using hr)⟩

end urlshort
